import Mathlib

/-!
Verification of the permission-scoped retrieval engine of the radex
document-management backend.

The development shallowly embeds the relevant source modules:

* app/services/permission_service.py  (PermissionService)
* app/services/embedding_service.py   (EmbeddingService)
* app/services/rag_service.py         (RAGService)

Database rows are lists of records; UUID columns are modelled as Nat keys
(only equality of UUIDs is ever used by the code); SQLAlchemy `first()`
is `List.find?`; filtered `all()` queries are `List.filter`.  Calls that
leave the process (the OpenAI embeddings and chat-completions endpoints,
the MinIO download plus text extraction, and the pgvector `<=>` distance
operator evaluated inside PostgreSQL) are passed in as explicit oracle
parameters, as the spec treats them as external services with a stable
function contract.  Exceptions are modelled with `Except`; the recursive
ancestor walk of `check_folder_permission` takes a fuel argument whose
exhaustion models the Python recursion limit on a cyclic parent chain.
-/

namespace Radex

/-- One row of the `users` table, restricted to the columns the
permission logic reads (`id`, `is_superuser`). -/
structure User where
  id : Nat
  is_superuser : Bool
deriving Repr, DecidableEq

/-- One row of the `folders` table (columns used by the services under
verification; `path` and timestamps are never read by them). -/
structure Folder where
  id : Nat
  name : String
  parent_id : Option Nat
  owner_id : Nat
deriving Repr, DecidableEq

/-- One row of the `permissions` table.  The surrogate primary key and
`created_at` are omitted: no service code reads them. -/
structure Permission where
  user_id : Nat
  folder_id : Nat
  can_read : Bool
  can_write : Bool
  can_delete : Bool
  is_admin : Bool
  granted_by : Option Nat
deriving Repr, DecidableEq

/-- One row of the `documents` table (columns read by the embedding and
RAG services). -/
structure Document where
  id : Nat
  folder_id : Nat
  filename : String
deriving Repr, DecidableEq

/-- One row of the `embeddings` table.  The vector is a list of
rationals (the code stores a list of floats); `embed_metadata` is kept
abstract as a string. -/
structure Embedding where
  document_id : Nat
  chunk_index : Nat
  chunk_text : String
  embedding : List Rat
  embed_metadata : String
deriving Repr, DecidableEq

/-- The relational state the services query and update. -/
structure DB where
  users : List User
  folders : List Folder
  permissions : List Permission
  documents : List Document
  embeddings : List Embedding
deriving Repr, DecidableEq

/-- The exception taxonomy of app/core/exceptions.py as far as the
embedded services raise it.  `recursionLimit` stands for the Python
`RecursionError` that an unbounded ancestor walk would hit on a cyclic
parent chain; the fuel-indexed functions below return it on fuel 0. -/
inductive AppError
  | notFound
  | permissionDenied
  | badRequest
  | recursionLimit
deriving Repr, DecidableEq

instance {ε α : Type} [DecidableEq ε] [DecidableEq α] : DecidableEq (Except ε α) := fun a b =>
  match a, b with
  | .ok x, .ok y =>
      if h : x = y then .isTrue (congrArg Except.ok h)
      else .isFalse (fun hh => h (Except.ok.inj hh))
  | .error x, .error y =>
      if h : x = y then .isTrue (congrArg Except.error h)
      else .isFalse (fun hh => h (Except.error.inj hh))
  | .ok _, .error _ => .isFalse (fun hh => Except.noConfusion hh)
  | .error _, .ok _ => .isFalse (fun hh => Except.noConfusion hh)

/-- `db.query(User).filter(User.id == user_id).first()`. -/
def DB.findUser (db : DB) (user_id : Nat) : Option User :=
  db.users.find? (fun u => u.id == user_id)

/-- `db.query(Folder).filter(Folder.id == folder_id).first()`. -/
def DB.findFolder (db : DB) (folder_id : Nat) : Option Folder :=
  db.folders.find? (fun f => f.id == folder_id)

/-- `db.query(Permission).filter(user_id == .., folder_id == ..).first()`. -/
def DB.findPermission (db : DB) (user_id folder_id : Nat) : Option Permission :=
  db.permissions.find? (fun p => p.user_id == user_id && p.folder_id == folder_id)

/-- The Python test `user and user.is_superuser` after the user lookup:
true exactly when a row with this id exists and has the superuser bit. -/
def is_superuser_row (db : DB) (user_id : Nat) : Bool :=
  match db.findUser user_id with
  | some u => u.is_superuser
  | none => false

/-- PermissionService.check_folder_permission.  Argument order:
`check_folder_permission db user_id permission_type fuel folder_id`;
the folder id is last because the ancestor recursion rebinds it.  The
checks appear in source order: superuser, folder load (NotFound when
missing), ownership, the single direct Permission row (`is_admin`
first, then the flag matching the requested type), then recursion into
`parent_id` when set, else false. -/
def check_folder_permission (db : DB) (user_id : Nat) (permission_type : String) :
    Nat → Nat → Except AppError Bool
  | 0, _ => .error .recursionLimit
  | fuel + 1, folder_id =>
    if is_superuser_row db user_id then .ok true
    else
      match db.findFolder folder_id with
      | none => .error .notFound
      | some folder =>
        if folder.owner_id == user_id then .ok true
        else
          let direct : Bool :=
            match db.findPermission user_id folder_id with
            | some p =>
                p.is_admin
                  || (permission_type == "read" && p.can_read)
                  || (permission_type == "write" && p.can_write)
                  || (permission_type == "delete" && p.can_delete)
            | none => false
          if direct then .ok true
          else
            match folder.parent_id with
            | some parent_id => check_folder_permission db user_id permission_type fuel parent_id
            | none => .ok false

/-- Python dict insertion (`d[k] = v`): replace the value of an existing
key in place, otherwise append the binding at the end. -/
def pydictInsert (m : List (Nat × Folder)) (k : Nat) (v : Folder) : List (Nat × Folder) :=
  if m.any (fun kv => kv.1 == k) then
    m.map (fun kv => if kv.1 == k then (k, v) else kv)
  else m ++ [(k, v)]

/-- The dict comprehension `{f.id: f for f in all_folders}` followed by
`list(unique_folders.values())`. -/
def dedupFoldersById (fs : List Folder) : List Folder :=
  (fs.foldl (fun m f => pydictInsert m f.id f) []).map Prod.snd

/-- PermissionService.get_user_accessible_folders: all folders for a
superuser; otherwise folders owned by the user plus folders carrying a
Permission row for the user with at least one flag set, deduplicated by
folder id through a Python dict. -/
def get_user_accessible_folders (db : DB) (user_id : Nat) : List Folder :=
  if is_superuser_row db user_id then db.folders
  else
    let owned_folders := db.folders.filter (fun f => f.owner_id == user_id)
    let flagged := db.permissions.filter (fun p =>
      p.user_id == user_id && (p.can_read || p.can_write || p.can_delete || p.is_admin))
    let permitted_folder_ids := flagged.map (fun p => p.folder_id)
    let permitted_folders :=
      if permitted_folder_ids.isEmpty then []
      else db.folders.filter (fun f => permitted_folder_ids.contains f.id)
    dedupFoldersById (owned_folders ++ permitted_folders)

/-- Replace the first element satisfying the predicate (SQLAlchemy
`first()` followed by attribute assignment mutates that single row). -/
def updateFirst (p : α → Bool) (g : α → α) : List α → List α
  | [] => []
  | x :: xs => if p x then g x :: xs else x :: updateFirst p g xs

/-- The authorization preamble of PermissionService.grant_permission:
superuser granters pass; otherwise `check_folder_permission(.., "admin")`
must hold (a NotFound raised by it propagates), and failing that the
granter must own the folder. -/
def grant_authorized (db : DB) (granter_id folder_id : Nat) (fuel : Nat) :
    Except AppError Unit :=
  if is_superuser_row db granter_id then .ok ()
  else
    match check_folder_permission db granter_id "admin" fuel folder_id with
    | .error e => .error e
    | .ok true => .ok ()
    | .ok false =>
      match db.findFolder folder_id with
      | some folder =>
          if folder.owner_id == granter_id then .ok () else .error .permissionDenied
      | none => .error .permissionDenied

/-- PermissionService.grant_permission: after authorization, update the
existing Permission row for `(user_id, folder_id)` in place when one
exists, otherwise insert a fresh row; the (refreshed) row and the
committed database are returned. -/
def grant_permission (db : DB) (granter_id user_id folder_id : Nat)
    (can_read can_write can_delete is_admin : Bool) (fuel : Nat) :
    Except AppError (Permission × DB) :=
  match grant_authorized db granter_id folder_id fuel with
  | .error e => .error e
  | .ok _ =>
    let isPair : Permission → Bool := fun p => p.user_id == user_id && p.folder_id == folder_id
    match db.permissions.find? isPair with
    | some existing =>
        let upd : Permission :=
          { existing with
            can_read := can_read, can_write := can_write,
            can_delete := can_delete, is_admin := is_admin,
            granted_by := some granter_id }
        .ok (upd, { db with permissions := updateFirst isPair (fun _ => upd) db.permissions })
    | none =>
        let fresh : Permission :=
          { user_id := user_id, folder_id := folder_id,
            can_read := can_read, can_write := can_write,
            can_delete := can_delete, is_admin := is_admin,
            granted_by := some granter_id }
        .ok (fresh, { db with permissions := db.permissions ++ [fresh] })

/-- One row of the result set of the similarity-search SQL in
EmbeddingService.search_similar_chunks (the SELECT list joined across
embeddings, documents and folders, with the computed score). -/
structure ChunkSearchRow where
  document_id : Nat
  document_name : String
  folder_id : Nat
  folder_name : String
  chunk_index : Nat
  chunk_text : String
  similarity_score : Rat
  embed_metadata : String
deriving Repr, DecidableEq

/-- Insert into a sorted list, keeping existing order among equals
(stable, as an SQL ORDER BY with arbitrary tie order may). -/
def insertSorted (le : α → α → Bool) (x : α) : List α → List α
  | [] => [x]
  | y :: ys => if le x y then x :: y :: ys else y :: insertSorted le x ys

/-- Stable insertion sort, modelling the ORDER BY of the search SQL. -/
def insertionSort (le : α → α → Bool) : List α → List α
  | [] => []
  | x :: xs => insertSorted le x (insertionSort le xs)

/-- EmbeddingService.search_similar_chunks.  `dist` is the pgvector
cosine-distance operator evaluated by PostgreSQL.  The method builds
the folder IN-list by string interpolation; with an empty
`folder_ids` the generated SQL reads `WHERE d.folder_id IN ()`, which
is a PostgreSQL syntax error, so the surrounding handler turns the
failed query into a BadRequest — nothing is returned.  Otherwise the
query inner-joins embeddings to documents and folders, keeps rows whose
folder id is in the list and whose similarity `1 - dist` reaches
`min_similarity`, orders by ascending distance and limits the output. -/
def search_similar_chunks (dist : List Rat → List Rat → Rat) (db : DB)
    (query_embedding : List Rat) (folder_ids : List Nat) (limit : Nat)
    (min_similarity : Rat) : Except AppError (List ChunkSearchRow) :=
  if folder_ids.isEmpty then
    .error .badRequest
  else
    let rows := db.embeddings.filterMap (fun e =>
      match db.documents.find? (fun d => d.id == e.document_id) with
      | none => none
      | some d =>
        match db.folders.find? (fun f => f.id == d.folder_id) with
        | none => none
        | some f =>
          let score := 1 - dist e.embedding query_embedding
          if folder_ids.contains d.folder_id && decide (score ≥ min_similarity) then
            some { document_id := e.document_id, document_name := d.filename,
                   folder_id := d.folder_id, folder_name := f.name,
                   chunk_index := e.chunk_index, chunk_text := e.chunk_text,
                   similarity_score := score, embed_metadata := e.embed_metadata }
          else none)
    .ok ((insertionSort (fun a b =>
      decide ((1 : Rat) - a.similarity_score ≤ 1 - b.similarity_score)) rows).take limit)

/-- One chunk produced by chunk_text_with_metadata: the chunk text and
its metadata dict (kept abstract as a string). -/
structure ChunkWithMetadata where
  text : String
  metadata : String
deriving Repr, DecidableEq

/-- EmbeddingService.process_document_embeddings, with its commit
points made observable: the first component of the result lists, in
order, every database state the method commits (each one visible to
concurrent readers), and the second is the returned record list or the
raised error.  `extract_text` is the MinIO download plus external text
extraction; `chunker` stands for the chunk_text_with_metadata call
(pure text processing whose output shape alone matters here); `embed`
is the OpenAI embeddings call.  Source behaviour being modelled: when
rows for the document already exist they are deleted and that delete is
committed on its own, before the try block; a failure inside the try
block rolls back only uncommitted work and raises BadRequest; on
success the freshly enumerated records are inserted and committed as a
second transaction. -/
def process_document_embeddings (db : DB)
    (extract_text : Except Unit String)
    (chunker : String → List ChunkWithMetadata)
    (embed : List String → Except Unit (List (List Rat)))
    (document_id : Nat) :
    List DB × Except AppError (List Embedding) :=
  match db.documents.find? (fun d => d.id == document_id) with
  | none => ([], .error .notFound)
  | some _document =>
    let has_existing := db.embeddings.any (fun e => e.document_id == document_id)
    let db1 :=
      if has_existing then
        { db with embeddings := db.embeddings.filter (fun e => !(e.document_id == document_id)) }
      else db
    let commits1 : List DB := if has_existing then [db1] else []
    match extract_text with
    | .error _ => (commits1, .error .badRequest)
    | .ok text =>
      if text.trim.isEmpty then (commits1, .error .badRequest)
      else
        let chunks_with_metadata := chunker text
        if chunks_with_metadata.isEmpty then (commits1, .error .badRequest)
        else
          match embed (chunks_with_metadata.map (fun c => c.text)) with
          | .error _ => (commits1, .error .badRequest)
          | .ok vectors =>
            let records := (chunks_with_metadata.zip vectors).enum.map (fun p =>
              { document_id := document_id, chunk_index := p.1,
                chunk_text := p.2.1.text, embedding := p.2.2,
                embed_metadata := p.2.1.metadata : Embedding })
            let db2 := { db1 with embeddings := db1.embeddings ++ records }
            (commits1 ++ [db2], .ok records)

/-- The external-inference surface of the RAG pipeline: the pgvector
distance operator, the OpenAI embeddings endpoint, and the two
chat-completions uses (answer synthesis and query reformulation).  The
prompts the code builds feed these calls but cannot change control
flow, so the oracles are plain outcomes. -/
structure ExternalInference where
  dist : List Rat → List Rat → Rat
  embed : List String → Except Unit (List (List Rat))
  answer_completion : Except Unit String
  reformulation_completion : Except Unit String

/-- EmbeddingService.generate_embeddings: the OpenAI call with every
failure wrapped into BadRequest. -/
def generate_embeddings (o : ExternalInference) (texts : List String) :
    Except AppError (List (List Rat)) :=
  match o.embed texts with
  | .ok vs => .ok vs
  | .error _ => .error .badRequest

/-- An invocation of an EmbeddingService method that a RAGService
request performs (the observable the empty-allow-list claim counts). -/
inductive EmbeddingServiceCall
  | generateEmbeddings (texts : List String)
  | searchSimilarChunks (folder_ids : List Nat)
deriving Repr, DecidableEq

/-- app/schemas/rag.py RAGQuery (validated request body). -/
structure RAGQuery where
  query : String
  folder_ids : Option (List Nat)
  limit : Nat
  min_relevance_score : Rat
deriving Repr, DecidableEq

/-- app/schemas/rag.py ChatMessage. -/
structure ChatMessage where
  role : String
  content : String
deriving Repr, DecidableEq

/-- app/schemas/rag.py ChatRequest (`folder_ids` is required there). -/
structure ChatRequest where
  messages : List ChatMessage
  folder_ids : List Nat
  limit : Nat
  min_relevance_score : Rat
deriving Repr, DecidableEq

/-- app/schemas/rag.py RAGChunk (one cited source). -/
structure RAGChunk where
  document_id : Nat
  document_name : String
  folder_id : Nat
  folder_name : String
  chunk_text : String
  relevance_score : Rat
  embed_metadata : String
deriving Repr, DecidableEq

/-- app/schemas/rag.py RAGResponse (processing_time omitted: wall-clock
latency is not part of any claim). -/
structure RAGResponse where
  query : String
  answer : String
  sources : List RAGChunk
  total_chunks : Nat
deriving Repr, DecidableEq

/-- app/schemas/rag.py ChatResponse (role is always "assistant"). -/
structure ChatResponse where
  content : String
  sources : List RAGChunk
  total_chunks : Nat
  reformulated_query : Option String
deriving Repr, DecidableEq

/-- RAGService._get_accessible_folders: ids of all folders accessible
to the user; when a non-empty folder_ids list was requested (Python
truthiness: an empty list behaves like None), keep only the requested
ids that are accessible. -/
def rag_get_accessible_folders (db : DB) (user_id : Nat)
    (requested_folder_ids : Option (List Nat)) : List Nat :=
  let accessible_folder_ids := (get_user_accessible_folders db user_id).map Folder.id
  match requested_folder_ids with
  | none => accessible_folder_ids
  | some l =>
    if l.isEmpty then accessible_folder_ids
    else l.filter (fun fid => accessible_folder_ids.contains fid)

/-- The RAGChunk built from one search row in the source-formatting
loops of RAGService.query and RAGService.chat. -/
def toRAGChunk (c : ChunkSearchRow) : RAGChunk :=
  { document_id := c.document_id, document_name := c.document_name,
    folder_id := c.folder_id, folder_name := c.folder_name,
    chunk_text := c.chunk_text, relevance_score := c.similarity_score,
    embed_metadata := c.embed_metadata }

/-- RAGService._generate_answer: one chat-completions call whose
stripped content is the answer; failures become BadRequest. -/
def rag_generate_answer (o : ExternalInference) : Except AppError String :=
  match o.answer_completion with
  | .ok s => .ok s.trim
  | .error _ => .error .badRequest

/-- RAGService._reformulate_query.  Returns the outcome together with
the number of model-inference calls issued.  Source behaviour: raise
BadRequest when the history holds no user message; return the latest
user message with no call when the history has at most one message;
otherwise make one call and fall back to the latest user message when
it fails or its stripped result is shorter than 5 characters. -/
def reformulate_query (reformulation : Except Unit String)
    (messages : List ChatMessage) (_max_history : Nat) :
    Except AppError String × Nat :=
  let user_messages := messages.filter (fun m => m.role == "user")
  match user_messages.getLast? with
  | none => (.error .badRequest, 0)
  | some last =>
    let latest_query := last.content
    if messages.length ≤ 1 then (.ok latest_query, 0)
    else
      match reformulation with
      | .error _ => (.ok latest_query, 1)
      | .ok s =>
        let reformulated := s.trim
        if reformulated.isEmpty || reformulated.length < 5 then (.ok latest_query, 1)
        else (.ok reformulated, 1)

/-- RAGService.query, with the list of EmbeddingService invocations it
performs recorded alongside the outcome.  The allow-list is computed
first; when it is empty a PermissionDenied is raised with the
embedding service never entered. -/
def rag_query (db : DB) (o : ExternalInference) (user_id : Nat) (rq : RAGQuery) :
    Except AppError RAGResponse × List EmbeddingServiceCall :=
  let accessible_folders := rag_get_accessible_folders db user_id rq.folder_ids
  if accessible_folders.isEmpty then (.error .permissionDenied, [])
  else
    let calls1 := [EmbeddingServiceCall.generateEmbeddings [rq.query]]
    match generate_embeddings o [rq.query] with
    | .error e => (.error e, calls1)
    | .ok embs =>
      match embs.head? with
      | none => (.error .badRequest, calls1)
      | some query_embedding =>
        let calls2 := calls1 ++ [EmbeddingServiceCall.searchSimilarChunks accessible_folders]
        match search_similar_chunks o.dist db query_embedding accessible_folders
            rq.limit rq.min_relevance_score with
        | .error e => (.error e, calls2)
        | .ok similar_chunks =>
          if similar_chunks.isEmpty then
            (.ok { query := rq.query,
                   answer := "No relevant documents found for your query.",
                   sources := [], total_chunks := 0 }, calls2)
          else
            match rag_generate_answer o with
            | .error e => (.error e, calls2)
            | .ok answer =>
              (.ok { query := rq.query, answer := answer,
                     sources := similar_chunks.map toRAGChunk,
                     total_chunks := similar_chunks.length }, calls2)

/-- RAGService.chat, instrumented like `rag_query`.  The message list
is validated first (BadRequest when empty), then the allow-list gate
runs, then the trailing 5-message window is reformulated, and only
after that is the embedding service entered. -/
def rag_chat (db : DB) (o : ExternalInference) (user_id : Nat) (cr : ChatRequest) :
    Except AppError ChatResponse × List EmbeddingServiceCall :=
  if cr.messages.isEmpty then (.error .badRequest, [])
  else
    let accessible_folders := rag_get_accessible_folders db user_id (some cr.folder_ids)
    if accessible_folders.isEmpty then (.error .permissionDenied, [])
    else
      let recent_messages :=
        if cr.messages.length > 5 then cr.messages.drop (cr.messages.length - 5)
        else cr.messages
      match (reformulate_query o.reformulation_completion recent_messages 5).1 with
      | .error e => (.error e, [])
      | .ok reformulated_query =>
        let calls1 := [EmbeddingServiceCall.generateEmbeddings [reformulated_query]]
        match generate_embeddings o [reformulated_query] with
        | .error e => (.error e, calls1)
        | .ok embs =>
          match embs.head? with
          | none => (.error .badRequest, calls1)
          | some query_embedding =>
            let calls2 := calls1 ++ [EmbeddingServiceCall.searchSimilarChunks accessible_folders]
            match search_similar_chunks o.dist db query_embedding accessible_folders
                cr.limit cr.min_relevance_score with
            | .error e => (.error e, calls2)
            | .ok similar_chunks =>
              if similar_chunks.isEmpty then
                (.ok { content := "No relevant documents found for your query.",
                       sources := [], total_chunks := 0,
                       reformulated_query := some reformulated_query }, calls2)
              else
                match rag_generate_answer o with
                | .error e => (.error e, calls2)
                | .ok answer =>
                  (.ok { content := answer,
                         sources := similar_chunks.map toRAGChunk,
                         total_chunks := similar_chunks.length,
                         reformulated_query := some reformulated_query }, calls2)

/-! ## Access Resolver claims -/

/-- A concrete database used by the access-resolver witnesses: a
superuser, a reader via a grant on the parent folder, an admin via a
grant on the parent folder, and a two-level folder chain owned by
user 5. -/
def permDemoDB : DB :=
  { users := [{ id := 1, is_superuser := true },
              { id := 2, is_superuser := false },
              { id := 3, is_superuser := false },
              { id := 5, is_superuser := false }],
    folders := [{ id := 10, name := "root", parent_id := none, owner_id := 5 },
                { id := 11, name := "child", parent_id := some 10, owner_id := 5 }],
    permissions := [{ user_id := 2, folder_id := 10, can_read := true, can_write := false,
                      can_delete := false, is_admin := false, granted_by := some 5 },
                    { user_id := 3, folder_id := 10, can_read := false, can_write := false,
                      can_delete := false, is_admin := true, granted_by := some 5 }],
    documents := [], embeddings := [] }

/-- Claim-style rendition of the capability resolution for capability
strings outside read/write/delete (in particular "admin"): access holds
exactly when the user owns the folder or some ancestor, or an is_admin
Permission row exists for the user on the folder or some ancestor
(superusers are handled one level up, in the claim theorem). -/
def admin_capability_via_ancestors (db : DB) (user_id : Nat) :
    Nat → Nat → Except AppError Bool
  | 0, _ => .error .recursionLimit
  | fuel + 1, folder_id =>
    match db.findFolder folder_id with
    | none => .error .notFound
    | some folder =>
      if folder.owner_id == user_id then .ok true
      else if (match db.findPermission user_id folder_id with
               | some p => p.is_admin
               | none => false) then .ok true
      else
        match folder.parent_id with
        | some parent_id => admin_capability_via_ancestors db user_id fuel parent_id
        | none => .ok false

/-- C9: superusers pass every check immediately, before the folder is
even loaded, so the result is true for any folder id and capability,
missing folders included; conversely a NotFound outcome can only ever
be produced for a caller that is not a superuser. -/
theorem check_superuser_supremacy (db : DB) (user_id folder_id : Nat)
    (permission_type : String) (fuel : Nat) :
    (is_superuser_row db user_id = true →
      check_folder_permission db user_id permission_type (fuel + 1) folder_id = .ok true)
  ∧ (check_folder_permission db user_id permission_type fuel folder_id = .error .notFound →
      is_superuser_row db user_id = false) := by
  constructor
  · intro h
    simp [check_folder_permission, h]
  · intro h
    cases hs : is_superuser_row db user_id
    · rfl
    · exfalso
      cases fuel with
      | zero => simp [check_folder_permission] at h
      | succ n => simp [check_folder_permission, hs] at h

/-- C9 witness: in a concrete database, superuser 1 passes a check on a
folder id that does not exist, and the NotFound raised for ordinary
user 2 on that folder id certifies user 2 is not a superuser. -/
theorem check_superuser_supremacy_witness :
    check_folder_permission permDemoDB 1 "delete" 1 999 = .ok true
  ∧ is_superuser_row permDemoDB 2 = false :=
  ⟨(check_superuser_supremacy permDemoDB 1 999 "delete" 0).1 (by decide),
   (check_superuser_supremacy permDemoDB 2 999 "read" 1).2 (by decide)⟩

/-- C2: permission inheritance is monotone: when a folder exists and
its parent check succeeds, the check on the folder itself succeeds for
the same user and capability — no Permission row stored on the child
can revoke access derived from an ancestor. -/
theorem check_inheritance_monotone (db : DB) (user_id : Nat) (permission_type : String)
    (fuel child_id parent_id : Nat) (fol : Folder)
    (hfol : db.findFolder child_id = some fol)
    (hparent : fol.parent_id = some parent_id)
    (hp : check_folder_permission db user_id permission_type fuel parent_id = .ok true) :
    check_folder_permission db user_id permission_type (fuel + 1) child_id = .ok true := by
  by_cases hs : is_superuser_row db user_id
  · simp [check_folder_permission, hs]
  · simp only [check_folder_permission, hfol, hs, Bool.false_eq_true, if_false]
    by_cases how : fol.owner_id == user_id
    · simp [how]
    · simp only [how, Bool.false_eq_true, if_false]
      by_cases hd : (match db.findPermission user_id child_id with
          | some p =>
              p.is_admin
                || (permission_type == "read" && p.can_read)
                || (permission_type == "write" && p.can_write)
                || (permission_type == "delete" && p.can_delete)
          | none => false)
      · simp [hd]
      · simp only [hd, Bool.false_eq_true, if_false, hparent]
        exact hp

/-- C2 witness: user 2 holds a read grant on parent folder 10 only;
the check on child folder 11 succeeds through inheritance. -/
theorem check_inheritance_monotone_witness :
    check_folder_permission permDemoDB 2 "read" 2 11 = .ok true :=
  check_inheritance_monotone permDemoDB 2 "read" 1 11 10
    { id := 11, name := "child", parent_id := some 10, owner_id := 5 }
    (by decide) rfl (by decide)

/-- C10: for a capability string outside read/write/delete ("admin" or
anything unrecognized), the check is equivalent to: superuser, or owner
of the folder or an ancestor, or an is_admin Permission row on the
folder or an ancestor; the can_read/can_write/can_delete flags never
satisfy such a capability. -/
theorem check_nonstandard_capability (db : DB) (user_id : Nat)
    (permission_type : String) (fuel folder_id : Nat)
    (h1 : permission_type ≠ "read") (h2 : permission_type ≠ "write")
    (h3 : permission_type ≠ "delete") :
    check_folder_permission db user_id permission_type fuel folder_id =
      (if is_superuser_row db user_id then
        (if fuel = 0 then .error .recursionLimit else .ok true)
       else admin_capability_via_ancestors db user_id fuel folder_id) := by
  have hr : (permission_type == "read") = false := by
    simpa using h1
  have hw : (permission_type == "write") = false := by
    simpa using h2
  have hd : (permission_type == "delete") = false := by
    simpa using h3
  induction fuel generalizing folder_id with
  | zero =>
      cases hs : is_superuser_row db user_id <;>
        simp [check_folder_permission, admin_capability_via_ancestors, hs]
  | succ n ih =>
      by_cases hs : is_superuser_row db user_id
      · simp [check_folder_permission, hs]
      · simp only [check_folder_permission, admin_capability_via_ancestors, hs,
          Bool.false_eq_true, if_false, hr, hw, hd, Bool.false_and, Bool.or_false,
          Nat.succ_ne_zero]
        cases hfol : db.findFolder folder_id with
        | none => rfl
        | some folder =>
            by_cases how : folder.owner_id == user_id
            · simp [how]
            · simp only [how, Bool.false_eq_true, if_false]
              cases hperm : db.findPermission user_id folder_id with
              | none =>
                  simp only [Bool.false_eq_true, if_false]
                  cases hpar : folder.parent_id with
                  | none => rfl
                  | some parent_id => simpa [hs] using ih parent_id
              | some p =>
                  by_cases hadm : p.is_admin
                  · simp [hadm]
                  · simp only [hadm, Bool.false_eq_true, if_false]
                    cases hpar : folder.parent_id with
                    | none => rfl
                    | some parent_id => simpa [hs] using ih parent_id

/-- C10 witness: user 3 holds an is_admin row on parent folder 10; the
"admin" capability resolves on child folder 11 exactly as the
ancestor-ownership-or-is-admin characterization does. -/
theorem check_nonstandard_capability_witness :
    check_folder_permission permDemoDB 3 "admin" 3 11 =
      (if is_superuser_row permDemoDB 3 then
        (if (3 : Nat) = 0 then .error .recursionLimit else .ok true)
       else admin_capability_via_ancestors permDemoDB 3 3 11) :=
  check_nonstandard_capability permDemoDB 3 "admin" 3 11
    (by decide) (by decide) (by decide)

/-! ## Retrieval Engine claims -/

theorem mem_insertSorted {le : α → α → Bool} {x a : α} {l : List α}
    (h : a ∈ insertSorted le x l) : a = x ∨ a ∈ l := by
  induction l with
  | nil => simpa [insertSorted] using h
  | cons y ys ih =>
      simp only [insertSorted] at h
      by_cases hc : le x y
      · simp only [hc, if_true] at h
        simpa using h
      · simp only [hc, Bool.false_eq_true, if_false, List.mem_cons] at h
        rcases h with h | h
        · simp [h]
        · rcases ih h with h | h <;> simp [h]

theorem mem_insertionSort {le : α → α → Bool} {a : α} {l : List α}
    (h : a ∈ insertionSort le l) : a ∈ l := by
  induction l with
  | nil => simp [insertionSort] at h
  | cons y ys ih =>
      simp only [insertionSort] at h
      rcases mem_insertSorted h with h | h
      · simp [h]
      · simp [ih h]

/-- C1: every row an `ok` result of the similarity search contains has
its folder id inside the allow-list passed to the search: the WHERE
clause is a hard pre-filter, so no chunk living outside
`allowed_folder_ids` is ever returned, whatever its score. -/
theorem search_similar_chunks_scoped (dist : List Rat → List Rat → Rat) (db : DB)
    (query_embedding : List Rat) (folder_ids : List Nat) (limit : Nat)
    (min_similarity : Rat) (rows : List ChunkSearchRow)
    (hok : search_similar_chunks dist db query_embedding folder_ids limit min_similarity
      = .ok rows) :
    ∀ r ∈ rows, r.folder_id ∈ folder_ids := by
  intro r hr
  unfold search_similar_chunks at hok
  by_cases he : folder_ids.isEmpty
  · simp [he] at hok
  · simp only [he, Bool.false_eq_true, if_false, Except.ok.injEq] at hok
    subst hok
    have hr1 := List.take_subset _ _ hr
    have hr2 := mem_insertionSort hr1
    rcases List.mem_filterMap.mp hr2 with ⟨e, _he, hfe⟩
    cases hdoc : db.documents.find? (fun d => d.id == e.document_id) with
    | none => simp [hdoc] at hfe
    | some d =>
        cases hfol : db.folders.find? (fun f => f.id == d.folder_id) with
        | none => simp [hdoc, hfol] at hfe
        | some f =>
            simp only [hdoc, hfol] at hfe
            simp at hfe
            rcases hfe with ⟨⟨hmem, _⟩, hrow⟩
            rw [← hrow]
            exact hmem

/-- The pgvector distance oracle used by the concrete search witnesses:
every stored vector is at distance 0 from the query. -/
def distParams : List Rat → List Rat → Rat := fun _ _ => 0

/-- A concrete database with one embedded chunk for the search
witnesses. -/
def searchDemoDB : DB :=
  { users := [], permissions := [],
    folders := [{ id := 1, name := "root", parent_id := none, owner_id := 1 }],
    documents := [{ id := 5, folder_id := 1, filename := "doc.txt" }],
    embeddings := [{ document_id := 5, chunk_index := 0, chunk_text := "hello",
                     embedding := [1], embed_metadata := "m" }] }

/-- The row the search over `searchDemoDB` returns. -/
def searchDemoRow : ChunkSearchRow :=
  { document_id := 5, document_name := "doc.txt", folder_id := 1, folder_name := "root",
    chunk_index := 0, chunk_text := "hello", similarity_score := 1, embed_metadata := "m" }

/-- C1 witness: the concrete search returns `searchDemoRow`, whose
folder id lies in the allow-list `[1]`. -/
theorem search_similar_chunks_scoped_witness : searchDemoRow.folder_id ∈ [1] :=
  search_similar_chunks_scoped distParams searchDemoDB [1] [1] 10 0 [searchDemoRow]
    (by simp [search_similar_chunks, distParams, searchDemoDB, searchDemoRow,
      insertionSort, insertSorted, List.filterMap])
    searchDemoRow (by decide)

/-- C4 counterexample: with an empty allow-list the search does not
return an empty result set — the interpolated SQL reads
`WHERE d.folder_id IN ()`, the query fails, and the method raises
BadRequest. -/
theorem search_empty_allowlist_counterexample :
    search_similar_chunks distParams searchDemoDB [1] [] 10 0 = .error .badRequest
  ∧ ¬ search_similar_chunks distParams searchDemoDB [1] [] 10 0 = .ok [] :=
  ⟨rfl, fun h => nomatch h⟩

/-- C4 amended: for every query, limit and threshold, calling the
search with an empty `allowed_folder_ids` raises BadRequest (the empty
IN-list makes the SQL fail) instead of returning an empty list; the
empty case is short-circuited only one layer up, in the orchestrator. -/
theorem search_empty_allowlist_raises (dist : List Rat → List Rat → Rat) (db : DB)
    (query_embedding : List Rat) (limit : Nat) (min_similarity : Rat) :
    search_similar_chunks dist db query_embedding [] limit min_similarity
      = .error .badRequest := rfl

/-! ## Embedding regeneration (C5) -/

/-- A document that already carries two embedding rows, for the
regeneration scenario. -/
def regenDB : DB :=
  { users := [], folders := [], permissions := [],
    documents := [{ id := 7, folder_id := 1, filename := "report.txt" }],
    embeddings := [{ document_id := 7, chunk_index := 0, chunk_text := "old chunk 0",
                     embedding := [1], embed_metadata := "g0" },
                   { document_id := 7, chunk_index := 1, chunk_text := "old chunk 1",
                     embedding := [2], embed_metadata := "g1" }] }

/-- The state `regenDB` reaches right after the standalone delete
commit: the two prior rows of document 7 are gone and nothing has been
inserted yet. -/
def regenDBDeleted : DB :=
  { users := [], folders := [], permissions := [],
    documents := [{ id := 7, folder_id := 1, filename := "report.txt" }],
    embeddings := [] }

/-- C5: regeneration is not one atomic delete-then-insert transaction.
On a document holding two prior chunks, a run whose text extraction
fails first commits the delete on its own — the committed-state trace
is exactly `[regenDBDeleted]`, a state with zero embedding rows for the
document, visible to concurrent readers — and then raises BadRequest,
leaving that gutted state behind even though the document had rows
before the call. -/
theorem process_document_embeddings_delete_committed_separately :
    process_document_embeddings regenDB (.error ()) (fun _ => []) (fun _ => .ok []) 7
      = ([regenDBDeleted], .error .badRequest)
  ∧ regenDBDeleted.embeddings.filter (fun e => e.document_id == 7) = []
  ∧ regenDB.embeddings.filter (fun e => e.document_id == 7) ≠ [] := by
  refine ⟨rfl, rfl, ?_⟩
  decide

/-! ## Conversational Reformulator (C6) -/

/-- True exactly on the outcomes the fallback clause of
_reformulate_query catches: a failed inference call, or a result whose
stripped text is empty or shorter than 5 characters. -/
def reformulation_falls_back (reformulation : Except Unit String) : Bool :=
  match reformulation with
  | .error _ => true
  | .ok s => s.trim.isEmpty || s.trim.length < 5

/-- True exactly when the call returned normally instead of raising. -/
def returnedOk {ε α : Type} : Except ε α → Bool
  | .ok _ => true
  | .error _ => false

/-- C6 counterexample: on a history without any user message (here the
empty history) _reformulate_query raises BadRequest — it is not
raise-free over every message history. -/
theorem reformulate_query_raises_counterexample :
    (reformulate_query (.ok "a reformulated question") [] 5).1 = .error .badRequest := rfl

/-- C6 amended: over every history that contains at least one user
message, _reformulate_query never raises; with at most one message it
returns the latest user message verbatim with zero inference calls;
and whenever the inference call fails or produces an empty or
shorter-than-5-character stripped result, it returns the latest user
message. -/
theorem reformulate_query_fallback (reformulation : Except Unit String)
    (messages : List ChatMessage) (max_history : Nat) (last : ChatMessage)
    (hlast : (messages.filter (fun m => m.role == "user")).getLast? = some last) :
    returnedOk (reformulate_query reformulation messages max_history).1 = true
  ∧ (messages.length ≤ 1 →
      reformulate_query reformulation messages max_history = (.ok last.content, 0))
  ∧ (reformulation_falls_back reformulation = true →
      (reformulate_query reformulation messages max_history).1 = .ok last.content) := by
  refine ⟨?_, ?_, ?_⟩
  · simp only [reformulate_query, hlast]
    by_cases hlen : messages.length ≤ 1
    · simp [hlen, returnedOk]
    · cases reformulation with
      | error e => simp [hlen, returnedOk]
      | ok s =>
          by_cases hshort : s.trim.isEmpty || s.trim.length < 5 <;>
            simp [hlen, hshort, returnedOk]
  · intro hlen
    simp only [reformulate_query, hlast]
    simp [hlen]
  · intro hfb
    simp only [reformulate_query, hlast]
    by_cases hlen : messages.length ≤ 1
    · simp [hlen]
    · cases hre : reformulation with
      | error e => simp [hlen]
      | ok s =>
          simp only [reformulation_falls_back, hre] at hfb
          simp [hlen, hfb]

/-- A one-message chat history. -/
def chatHistoryOne : List ChatMessage := [{ role := "user", content := "What is AI?" }]

/-- A two-message chat history whose latest user message asks about
transformers. -/
def chatHistoryTwo : List ChatMessage :=
  [{ role := "user", content := "What is AI?" },
   { role := "user", content := "tell me more about transformers" }]

/-- C6 witness: the single-message history returns its text with zero
inference calls, and a two-message history whose inference call fails
falls back to the latest user message. -/
theorem reformulate_query_fallback_witness :
    reformulate_query (.ok "ignored because the history is one message") chatHistoryOne 5
      = (.ok "What is AI?", 0)
  ∧ (reformulate_query (.error ()) chatHistoryTwo 5).1 = .ok "tell me more about transformers" :=
  ⟨(reformulate_query_fallback (.ok "ignored because the history is one message")
      chatHistoryOne 5 { role := "user", content := "What is AI?" } rfl).2.1 (by decide),
   (reformulate_query_fallback (.error ()) chatHistoryTwo 5
      { role := "user", content := "tell me more about transformers" } rfl).2.2 rfl⟩

/-! ## RAG Orchestrator short-circuit (C3) -/

/-- C3: when the computed allow-list — the accessible folders of the
caller, filtered down to the requested folder ids when a non-empty
request was given — is empty, both the query and the chat entry points
fail with PermissionDenied and perform zero EmbeddingService
invocations (the chat side first validates that the message list is
non-empty, which the request schema guarantees with its min_items=1
constraint). -/
theorem rag_empty_allowlist_short_circuit (db : DB) (o : ExternalInference)
    (user_id : Nat) (rq : RAGQuery) (cr : ChatRequest) :
    (rag_get_accessible_folders db user_id rq.folder_ids = [] →
      rag_query db o user_id rq = (.error .permissionDenied, []))
  ∧ (cr.messages ≠ [] →
      rag_get_accessible_folders db user_id (some cr.folder_ids) = [] →
      rag_chat db o user_id cr = (.error .permissionDenied, [])) := by
  constructor
  · intro h
    simp [rag_query, h]
  · intro hm h
    simp [rag_chat, hm, h]

/-- The external-inference oracles used by the orchestrator witnesses;
none of them is reached on the short-circuit path. -/
def ragDemoOracles : ExternalInference :=
  { dist := distParams, embed := fun _ => .ok [[1]],
    answer_completion := .ok "an answer",
    reformulation_completion := .ok "a reformulated question" }

/-- A database without any folder, user or grant: every allow-list
computed over it is empty. -/
def emptyPermDB : DB :=
  { users := [], folders := [], permissions := [], documents := [], embeddings := [] }

/-- A query request without requested folder ids. -/
def ragDemoQuery : RAGQuery :=
  { query := "what was the revenue", folder_ids := none, limit := 10,
    min_relevance_score := 0 }

/-- A chat request scoped to folder 42. -/
def ragDemoChat : ChatRequest :=
  { messages := chatHistoryOne, folder_ids := [42], limit := 10,
    min_relevance_score := 0 }

/-- C3 witness: over the empty database both entry points return
PermissionDenied with an empty list of EmbeddingService invocations. -/
theorem rag_empty_allowlist_short_circuit_witness :
    rag_query emptyPermDB ragDemoOracles 1 ragDemoQuery = (.error .permissionDenied, [])
  ∧ rag_chat emptyPermDB ragDemoOracles 1 ragDemoChat = (.error .permissionDenied, []) :=
  ⟨(rag_empty_allowlist_short_circuit emptyPermDB ragDemoOracles 1 ragDemoQuery ragDemoChat).1
      rfl,
   (rag_empty_allowlist_short_circuit emptyPermDB ragDemoOracles 1 ragDemoQuery ragDemoChat).2
      (by decide) rfl⟩

/-! ## Grant upsert (C7) -/

/-- The Permission rows stored for one `(user_id, folder_id)` pair. -/
def pairRows (db : DB) (user_id folder_id : Nat) : List Permission :=
  db.permissions.filter (fun p => p.user_id == user_id && p.folder_id == folder_id)

theorem updateFirst_length (p : α → Bool) (g : α → α) (l : List α) :
    (updateFirst p g l).length = l.length := by
  induction l with
  | nil => rfl
  | cons x xs ih => by_cases hx : p x <;> simp [updateFirst, hx, ih]

theorem filter_updateFirst_of_find (p : α → Bool) (u a : α) (hu : p u = true)
    (l : List α) (hone : (l.filter p).length ≤ 1) (hfind : l.find? p = some a) :
    (updateFirst p (fun _ => u) l).filter p = [u] := by
  induction l with
  | nil => simp at hfind
  | cons x xs ih =>
      by_cases hx : p x
      · have hxs : xs.filter p = [] := by
          rw [List.filter_cons_of_pos hx] at hone
          simp only [List.length_cons] at hone
          exact List.length_eq_zero.mp (by omega)
        simp [updateFirst, hx, List.filter_cons, hu, hxs]
      · rw [List.find?_cons_of_neg _ hx] at hfind
        rw [List.filter_cons_of_neg hx] at hone
        simp [updateFirst, hx, List.filter_cons, ih hone hfind]

theorem filter_not_updateFirst (p : α → Bool) (u : α) (hu : p u = true) (l : List α) :
    (updateFirst p (fun _ => u) l).filter (fun a => !(p a))
      = l.filter (fun a => !(p a)) := by
  induction l with
  | nil => rfl
  | cons x xs ih =>
      by_cases hx : p x
      · simp [updateFirst, hx, List.filter_cons, hu]
      · simp [updateFirst, hx, List.filter_cons, ih]

theorem updateFirst_self (p : α → Bool) (l : List α) (a : α)
    (hfind : l.find? p = some a) : updateFirst p (fun _ => a) l = l := by
  induction l with
  | nil => simp at hfind
  | cons x xs ih =>
      by_cases hx : p x
      · rw [List.find?_cons_of_pos _ hx] at hfind
        have hax : x = a := Option.some.inj hfind
        subst hax
        simp [updateFirst, hx]
      · rw [List.find?_cons_of_neg _ hx] at hfind
        simp [updateFirst, hx, ih hfind]

theorem find?_of_filter_singleton (p : α → Bool) (l : List α) (a : α)
    (h : l.filter p = [a]) : l.find? p = some a := by
  induction l with
  | nil => simp at h
  | cons x xs ih =>
      by_cases hx : p x
      · rw [List.filter_cons_of_pos hx] at h
        rw [List.find?_cons_of_pos _ hx]
        exact congrArg some (List.cons.inj h).1
      · rw [List.filter_cons_of_neg hx] at h
        rw [List.find?_cons_of_neg _ hx]
        exact ih h

/-- A second identical grant on a state whose pair rows are exactly
the already-granted row either fails its authorization (changing
nothing) or rewrites that row to itself, leaving the database equal. -/
theorem grant_permission_second_run (db1 : DB) (granter_id user_id folder_id : Nat)
    (can_read can_write can_delete is_admin : Bool) (fuel : Nat) (p : Permission)
    (hpair : pairRows db1 user_id folder_id = [p])
    (hcr : p.can_read = can_read) (hcw : p.can_write = can_write)
    (hcd : p.can_delete = can_delete) (hia : p.is_admin = is_admin)
    (hgb : p.granted_by = some granter_id) :
    (match grant_permission db1 granter_id user_id folder_id
        can_read can_write can_delete is_admin fuel with
     | .ok (_, db2) => db2 = db1
     | .error _ => True) := by
  have hfind : db1.permissions.find?
      (fun q => q.user_id == user_id && q.folder_id == folder_id) = some p :=
    find?_of_filter_singleton _ _ _ hpair
  have hupd : ({ p with
      can_read := can_read, can_write := can_write,
      can_delete := can_delete, is_admin := is_admin,
      granted_by := some granter_id } : Permission) = p := by
    rw [← hcr, ← hcw, ← hcd, ← hia, ← hgb]
  cases hauth : grant_authorized db1 granter_id folder_id fuel with
  | error e => simp [grant_permission, hauth]
  | ok u =>
      simp only [grant_permission, hauth, hfind]
      rw [hupd, updateFirst_self _ _ _ hfind]

/-- C7: grant is an idempotent upsert.  Provided the database respects
the unique constraint on `(user_id, folder_id)` (at most one row for
the pair), a successful grant leaves exactly one row for the pair,
carrying exactly the granted flags and granter; rows of other pairs
are untouched; the row count grows only when no row existed; and
granting the same flags again either changes nothing (its result
database equals the first) or fails authorization without modifying
anything. -/
theorem grant_permission_upsert (db : DB) (granter_id user_id folder_id : Nat)
    (can_read can_write can_delete is_admin : Bool) (fuel : Nat)
    (p : Permission) (db1 : DB)
    (hone : (pairRows db user_id folder_id).length ≤ 1)
    (hok : grant_permission db granter_id user_id folder_id
        can_read can_write can_delete is_admin fuel = .ok (p, db1)) :
    pairRows db1 user_id folder_id = [p]
  ∧ p.can_read = can_read ∧ p.can_write = can_write ∧ p.can_delete = can_delete
  ∧ p.is_admin = is_admin ∧ p.granted_by = some granter_id
  ∧ db1.permissions.length =
      (if (pairRows db user_id folder_id).isEmpty then db.permissions.length + 1
       else db.permissions.length)
  ∧ db1.permissions.filter
        (fun q => !(q.user_id == user_id && q.folder_id == folder_id))
      = db.permissions.filter
        (fun q => !(q.user_id == user_id && q.folder_id == folder_id))
  ∧ (match grant_permission db1 granter_id user_id folder_id
        can_read can_write can_delete is_admin fuel with
     | .ok (_, db2) => db2 = db1
     | .error _ => True) := by
  cases hauth : grant_authorized db granter_id folder_id fuel with
  | error e => simp [grant_permission, hauth] at hok
  | ok u =>
      simp only [grant_permission, hauth] at hok
      cases hfind : db.permissions.find?
          (fun q => q.user_id == user_id && q.folder_id == folder_id) with
      | some existing =>
          rw [hfind] at hok
          simp only [Except.ok.injEq, Prod.mk.injEq] at hok
          obtain ⟨hp, hdb1⟩ := hok
          subst hdb1
          subst hp
          have hone2 : (db.permissions.filter
              (fun q => q.user_id == user_id && q.folder_id == folder_id)).length ≤ 1 := hone
          have hpexist0 := List.find?_some hfind
          have hpexist : (existing.user_id == user_id && existing.folder_id == folder_id)
              = true := hpexist0
          have hne : (pairRows db user_id folder_id).isEmpty = false := by
            have hmem : existing ∈ pairRows db user_id folder_id :=
              List.mem_filter.mpr ⟨List.mem_of_find?_eq_some hfind, hpexist⟩
            cases hemp : (pairRows db user_id folder_id).isEmpty
            · rfl
            · rw [List.isEmpty_iff.mp hemp] at hmem
              cases hmem
          have hpairs := filter_updateFirst_of_find
            (fun q : Permission => q.user_id == user_id && q.folder_id == folder_id)
            { existing with
              can_read := can_read, can_write := can_write,
              can_delete := can_delete, is_admin := is_admin,
              granted_by := some granter_id }
            existing hpexist db.permissions hone2 hfind
          refine ⟨hpairs, rfl, rfl, rfl, rfl, rfl, ?_, ?_, ?_⟩
          · simp [hne, updateFirst_length]
          · exact filter_not_updateFirst
              (fun q : Permission => q.user_id == user_id && q.folder_id == folder_id)
              { existing with
                can_read := can_read, can_write := can_write,
                can_delete := can_delete, is_admin := is_admin,
                granted_by := some granter_id }
              hpexist db.permissions
          · exact grant_permission_second_run
              { db with
                permissions := updateFirst
                  (fun q => q.user_id == user_id && q.folder_id == folder_id)
                  (fun _ => { existing with
                    can_read := can_read, can_write := can_write,
                    can_delete := can_delete, is_admin := is_admin,
                    granted_by := some granter_id }) db.permissions }
              granter_id user_id folder_id can_read can_write can_delete is_admin fuel
              { existing with
                can_read := can_read, can_write := can_write,
                can_delete := can_delete, is_admin := is_admin,
                granted_by := some granter_id }
              hpairs rfl rfl rfl rfl rfl
      | none =>
          rw [hfind] at hok
          simp only [Except.ok.injEq, Prod.mk.injEq] at hok
          obtain ⟨hp, hdb1⟩ := hok
          subst hdb1
          subst hp
          have hnil : db.permissions.filter
              (fun q => q.user_id == user_id && q.folder_id == folder_id) = [] := by
            rw [List.filter_eq_nil_iff]
            intro q hq
            have := List.find?_eq_none.mp hfind q hq
            simpa using this
          have hnil2 : pairRows db user_id folder_id = [] := hnil
          have hpairs : pairRows
              { db with
                permissions := db.permissions ++
                  [{ user_id := user_id, folder_id := folder_id,
                     can_read := can_read, can_write := can_write,
                     can_delete := can_delete, is_admin := is_admin,
                     granted_by := some granter_id }] } user_id folder_id
              = [{ user_id := user_id, folder_id := folder_id,
                   can_read := can_read, can_write := can_write,
                   can_delete := can_delete, is_admin := is_admin,
                   granted_by := some granter_id }] := by
            show (db.permissions ++ _).filter _ = _
            rw [List.filter_append, hnil]
            simp
          refine ⟨hpairs, rfl, rfl, rfl, rfl, rfl, ?_, ?_, ?_⟩
          · simp [hnil2]
          · show (db.permissions ++ _).filter _ = _
            rw [List.filter_append]
            simp
          · exact grant_permission_second_run
              { db with
                permissions := db.permissions ++
                  [{ user_id := user_id, folder_id := folder_id,
                     can_read := can_read, can_write := can_write,
                     can_delete := can_delete, is_admin := is_admin,
                     granted_by := some granter_id }] }
              granter_id user_id folder_id can_read can_write can_delete is_admin fuel
              ⟨user_id, folder_id, can_read, can_write, can_delete, is_admin, some granter_id⟩
              hpairs rfl rfl rfl rfl rfl

/-- The Permission row produced by the witness grant: superuser 1
re-grants read to user 2 on folder 10. -/
def grantDemoRow : Permission :=
  { user_id := 2, folder_id := 10, can_read := true, can_write := false,
    can_delete := false, is_admin := false, granted_by := some 1 }

/-- The database after that grant: the existing (2, 10) row was updated
in place, the (3, 10) row is untouched. -/
def grantDemoDB1 : DB :=
  { permDemoDB with
    permissions := [grantDemoRow,
                    { user_id := 3, folder_id := 10, can_read := false, can_write := false,
                      can_delete := false, is_admin := true, granted_by := some 5 }] }

/-- C7 witness: the concrete grant over `permDemoDB` leaves exactly one
(2, 10) row — the granted one — and a second identical grant maps the
resulting database to itself. -/
theorem grant_permission_upsert_witness :
    pairRows grantDemoDB1 2 10 = [grantDemoRow]
  ∧ (match grant_permission grantDemoDB1 1 2 10 true false false false 1 with
     | .ok (_, db2) => db2 = grantDemoDB1
     | .error _ => True) :=
  have h := grant_permission_upsert permDemoDB 1 2 10 true false false false 1
    grantDemoRow grantDemoDB1 (by decide) (by rfl)
  ⟨h.1, h.2.2.2.2.2.2.2.2⟩

/-! ## Accessible-Set Enumerator (C8) -/

theorem mem_pydictInsert {m : List (Nat × Folder)} {k : Nat} {v : Folder}
    {x : Nat × Folder} (hx : x ∈ pydictInsert m k v) : x ∈ m ∨ x = (k, v) := by
  unfold pydictInsert at hx
  by_cases hany : m.any (fun kv => kv.1 == k)
  · simp only [hany, if_true] at hx
    rcases List.mem_map.mp hx with ⟨kv, hkv, hmap⟩
    by_cases hk : kv.1 == k
    · right
      rw [← hmap]
      simp [hk]
    · left
      rw [← hmap]
      simpa [hk] using hkv
  · simp only [hany, Bool.false_eq_true, if_false] at hx
    rcases List.mem_append.mp hx with hmem | hmem
    · exact Or.inl hmem
    · right
      simpa using hmem

theorem keys_pydictInsert (m : List (Nat × Folder)) (k : Nat) (v : Folder) :
    (pydictInsert m k v).map Prod.fst =
      (if m.any (fun kv => kv.1 == k) then m.map Prod.fst
       else m.map Prod.fst ++ [k]) := by
  unfold pydictInsert
  by_cases hany : m.any (fun kv => kv.1 == k)
  · simp only [hany, if_true, List.map_map]
    apply List.map_congr_left
    intro kv _
    by_cases hk : kv.1 == k
    · simp only [Function.comp, hk, if_true]
      exact (eq_of_beq hk).symm
    · simp [Function.comp, hk]
  · simp [hany]

theorem keys_nodup_pydictInsert {m : List (Nat × Folder)}
    (h : (m.map Prod.fst).Nodup) (k : Nat) (v : Folder) :
    ((pydictInsert m k v).map Prod.fst).Nodup := by
  rw [keys_pydictInsert]
  by_cases hany : m.any (fun kv => kv.1 == k)
  · simpa [hany] using h
  · have hk : k ∉ m.map Prod.fst := by
      intro hmem
      rcases List.mem_map.mp hmem with ⟨kv, hkv, hfst⟩
      exact hany (List.any_eq_true.mpr ⟨kv, hkv, by simp [hfst]⟩)
    simp [hany, List.nodup_append, h, hk]

theorem keys_mono_pydictInsert {m : List (Nat × Folder)} {k1 : Nat}
    (h : k1 ∈ m.map Prod.fst) (k : Nat) (v : Folder) :
    k1 ∈ (pydictInsert m k v).map Prod.fst := by
  rw [keys_pydictInsert]
  by_cases hany : m.any (fun kv => kv.1 == k) <;> simp [hany, h]

theorem key_mem_pydictInsert (m : List (Nat × Folder)) (k : Nat) (v : Folder) :
    k ∈ (pydictInsert m k v).map Prod.fst := by
  rw [keys_pydictInsert]
  by_cases hany : m.any (fun kv => kv.1 == k)
  · simp only [hany, if_true]
    rcases List.any_eq_true.mp hany with ⟨kv, hkv, hk⟩
    exact List.mem_map.mpr ⟨kv, hkv, eq_of_beq hk⟩
  · simp [hany]

theorem foldl_pydict_mem {fs : List Folder} :
    ∀ {m : List (Nat × Folder)} {x : Nat × Folder},
      x ∈ fs.foldl (fun m f => pydictInsert m f.id f) m →
      x ∈ m ∨ (x.2 ∈ fs ∧ x.1 = x.2.id) := by
  induction fs with
  | nil =>
      intro m x hx
      exact Or.inl (by simpa using hx)
  | cons f fs ih =>
      intro m x hx
      simp only [List.foldl_cons] at hx
      rcases ih hx with hmem | hmem
      · rcases mem_pydictInsert hmem with h2 | h2
        · exact Or.inl h2
        · right
          rw [h2]
          exact ⟨by simp, rfl⟩
      · right
        exact ⟨List.mem_cons_of_mem _ hmem.1, hmem.2⟩

theorem foldl_pydict_keys_nodup {fs : List Folder} :
    ∀ {m : List (Nat × Folder)}, (m.map Prod.fst).Nodup →
      ((fs.foldl (fun m f => pydictInsert m f.id f) m).map Prod.fst).Nodup := by
  induction fs with
  | nil =>
      intro m h
      simpa using h
  | cons f fs ih =>
      intro m h
      simp only [List.foldl_cons]
      exact ih (keys_nodup_pydictInsert h f.id f)

theorem foldl_pydict_keys_mono {fs : List Folder} :
    ∀ {m : List (Nat × Folder)} {k1 : Nat}, k1 ∈ m.map Prod.fst →
      k1 ∈ (fs.foldl (fun m f => pydictInsert m f.id f) m).map Prod.fst := by
  induction fs with
  | nil =>
      intro m k1 h
      simpa using h
  | cons f fs ih =>
      intro m k1 h
      simp only [List.foldl_cons]
      exact ih (keys_mono_pydictInsert h f.id f)

theorem foldl_pydict_key_exists {fs : List Folder} :
    ∀ {m : List (Nat × Folder)} {f : Folder}, f ∈ fs →
      f.id ∈ (fs.foldl (fun m f => pydictInsert m f.id f) m).map Prod.fst := by
  induction fs with
  | nil =>
      intro m f hf
      cases hf
  | cons g gs ih =>
      intro m f hf
      simp only [List.foldl_cons]
      rcases List.mem_cons.mp hf with hf | hf
      · subst hf
        exact foldl_pydict_keys_mono (key_mem_pydictInsert m f.id f)
      · exact ih hf

theorem mem_dedupFoldersById {fs : List Folder} {g : Folder}
    (hg : g ∈ dedupFoldersById fs) : g ∈ fs := by
  unfold dedupFoldersById at hg
  rcases List.mem_map.mp hg with ⟨kv, hkv, hsnd⟩
  rcases foldl_pydict_mem hkv with h | h
  · simp at h
  · rw [← hsnd]
    exact h.1

theorem exists_mem_dedupFoldersById {fs : List Folder} {f : Folder} (hf : f ∈ fs) :
    ∃ g ∈ dedupFoldersById fs, g.id = f.id := by
  have hk := @foldl_pydict_key_exists fs [] f hf
  rcases List.mem_map.mp hk with ⟨kv, hkv, hfst⟩
  rcases foldl_pydict_mem hkv with h | h
  · simp at h
  · refine ⟨kv.2, List.mem_map.mpr ⟨kv, hkv, rfl⟩, ?_⟩
    rw [← h.2]
    exact hfst

theorem nodup_ids_dedupFoldersById (fs : List Folder) :
    ((dedupFoldersById fs).map Folder.id).Nodup := by
  unfold dedupFoldersById
  rw [List.map_map]
  have hco : ∀ kv ∈ fs.foldl (fun m f => pydictInsert m f.id f) [],
      (Folder.id ∘ Prod.snd) kv = Prod.fst kv := by
    intro kv hkv
    rcases foldl_pydict_mem hkv with h | h
    · simp at h
    · simp [Function.comp, h.2]
  rw [List.map_congr_left hco]
  exact foldl_pydict_keys_nodup (by simp)

/-- Deduplication by folder id is the identity on membership as long as
the pool the rows come from has distinct folder ids. -/
theorem mem_dedupFoldersById_iff {base fs : List Folder}
    (hsub : ∀ g ∈ fs, g ∈ base) (hnodup : (base.map Folder.id).Nodup) (f : Folder) :
    f ∈ dedupFoldersById fs ↔ f ∈ fs := by
  constructor
  · exact mem_dedupFoldersById
  · intro hf
    rcases exists_mem_dedupFoldersById hf with ⟨g, hg, hgid⟩
    have hgfs := mem_dedupFoldersById hg
    have hgf : g = f :=
      List.inj_on_of_nodup_map hnodup (hsub g hgfs) (hsub f hf) hgid
    rwa [hgf] at hg

/-- C8: the accessible-folder enumeration returns all folders for a
superuser; for everyone else it returns exactly the folders with a
direct relationship — owned by the user, or carrying a Permission row
for the user with at least one of the four flags set — with no folder
id appearing twice.  In particular no folder enters the enumeration
through ancestor inheritance alone.  The sole hypothesis is the
primary-key uniqueness of folder ids. -/
theorem get_user_accessible_folders_spec (db : DB) (user_id : Nat)
    (hnodup : (db.folders.map Folder.id).Nodup) :
    (is_superuser_row db user_id = true →
      get_user_accessible_folders db user_id = db.folders)
  ∧ (is_superuser_row db user_id = false →
      (∀ f : Folder, f ∈ get_user_accessible_folders db user_id ↔
        (f ∈ db.folders ∧ (f.owner_id = user_id ∨ ∃ p ∈ db.permissions,
          p.user_id = user_id ∧ p.folder_id = f.id ∧
          (p.can_read = true ∨ p.can_write = true ∨ p.can_delete = true
            ∨ p.is_admin = true))))
      ∧ ((get_user_accessible_folders db user_id).map Folder.id).Nodup) := by
  constructor
  · intro h
    simp [get_user_accessible_folders, h]
  · intro h
    have hsub : ∀ g ∈ db.folders.filter (fun f => f.owner_id == user_id) ++
        (if ((db.permissions.filter (fun p => p.user_id == user_id &&
            (p.can_read || p.can_write || p.can_delete || p.is_admin))).map
              (fun p => p.folder_id)).isEmpty then ([] : List Folder)
         else db.folders.filter (fun f =>
           ((db.permissions.filter (fun p => p.user_id == user_id &&
             (p.can_read || p.can_write || p.can_delete || p.is_admin))).map
               (fun p => p.folder_id)).contains f.id)), g ∈ db.folders := by
      intro g hg
      rcases List.mem_append.mp hg with hg | hg
      · exact (List.mem_filter.mp hg).1
      · split at hg
        · cases hg
        · exact (List.mem_filter.mp hg).1
    constructor
    · intro f
      simp only [get_user_accessible_folders, h, Bool.false_eq_true, if_false]
      rw [mem_dedupFoldersById_iff hsub hnodup]
      constructor
      · intro hall
        rcases List.mem_append.mp hall with hο | hp
        · have hm := List.mem_filter.mp hο
          exact ⟨hm.1, Or.inl (by simpa using hm.2)⟩
        · split at hp
          · cases hp
          · have hm := List.mem_filter.mp hp
            refine ⟨hm.1, Or.inr ?_⟩
            have hcont : f.id ∈ (db.permissions.filter (fun p => p.user_id == user_id &&
                (p.can_read || p.can_write || p.can_delete || p.is_admin))).map
                  (fun p => p.folder_id) := by
              simpa using hm.2
            rcases List.mem_map.mp hcont with ⟨p, hpflagged, hpfid⟩
            have hpm := List.mem_filter.mp hpflagged
            have hflags := hpm.2
            simp only [Bool.and_eq_true, beq_iff_eq, Bool.or_eq_true] at hflags
            exact ⟨p, hpm.1, hflags.1, hpfid, by tauto⟩
      · rintro ⟨hfdb, hown | ⟨p, hpdb, hpu, hpfid, hpflags⟩⟩
        · exact List.mem_append.mpr (Or.inl
            (List.mem_filter.mpr ⟨hfdb, by simp [hown]⟩))
        · have hpflag : p ∈ db.permissions.filter (fun p => p.user_id == user_id &&
              (p.can_read || p.can_write || p.can_delete || p.is_admin)) := by
            refine List.mem_filter.mpr ⟨hpdb, ?_⟩
            rcases hpflags with hfl | hfl | hfl | hfl <;> simp [hpu, hfl]
          have hidmem : f.id ∈ (db.permissions.filter (fun p => p.user_id == user_id &&
              (p.can_read || p.can_write || p.can_delete || p.is_admin))).map
                (fun p => p.folder_id) :=
            List.mem_map.mpr ⟨p, hpflag, hpfid⟩
          have hne := List.ne_nil_of_mem hidmem
          refine List.mem_append.mpr (Or.inr ?_)
          rw [if_neg (fun hc => hne (List.isEmpty_iff.mp hc))]
          exact List.mem_filter.mpr ⟨hfdb, by simpa using hidmem⟩
    · simp only [get_user_accessible_folders, h, Bool.false_eq_true, if_false]
      exact nodup_ids_dedupFoldersById _

/-- C8 witness: superuser 1 enumerates every folder of `permDemoDB`,
and user 2 (read grant on folder 10 only) enumerates folder 10 through
the direct-grant arm of the characterization. -/
theorem get_user_accessible_folders_spec_witness :
    get_user_accessible_folders permDemoDB 1 = permDemoDB.folders
  ∧ ({ id := 10, name := "root", parent_id := none, owner_id := 5 } : Folder)
      ∈ get_user_accessible_folders permDemoDB 2 :=
  ⟨(get_user_accessible_folders_spec permDemoDB 1 (by decide)).1 rfl,
   (((get_user_accessible_folders_spec permDemoDB 2 (by decide)).2 rfl).1
       { id := 10, name := "root", parent_id := none, owner_id := 5 }).mpr
     ⟨by decide,
      Or.inr ⟨{ user_id := 2, folder_id := 10, can_read := true, can_write := false,
                can_delete := false, is_admin := false, granted_by := some 5 },
        by decide, rfl, rfl, Or.inl rfl⟩⟩⟩

end Radex
